import Mathlib

/-!
Shallow embedding of the nexagen1 messaging application's authorization
and relationship-state core: the SQL row-level-security policies and the
client-side data operations (friend requests, notifications, conversation
lookup, username normalization, profile search).

Identities and row keys are opaque; we model them as natural numbers.
Each relational table is a list of rows, and the database is a `Store`
record holding the five tables.  Client operations are state-passing
functions on `Store`; fallible operations return the unchanged store on
failure, mirroring the source's early returns and catch blocks.
-/

namespace Nexagen

/-- Opaque user identity supplied by the authentication provider. -/
abbrev UserId := Nat

/-- Generated row identifier. -/
abbrev RowId := Nat

/-- `friendship_status` enum from the first migration. -/
inductive FriendshipStatus where
  | pending
  | accepted
  | blocked
  deriving DecidableEq, Repr

/-- `gender_type` enum from the first migration. -/
inductive Gender where
  | male
  | female
  | other
  | prefer_not_to_say
  deriving DecidableEq, Repr

/-- A row of `public.profiles`. -/
structure Profile where
  id : RowId
  user_id : UserId
  username : String
  bio : Option String
  gender : Option Gender
  date_of_birth : Option String
  avatar_url : Option String
  deriving DecidableEq, Repr

/-- A row of `public.friendships`. -/
structure Friendship where
  id : RowId
  requester_id : UserId
  addressee_id : UserId
  status : FriendshipStatus
  deriving DecidableEq, Repr

/-- A row of `public.conversations`. -/
structure Conversation where
  id : RowId
  participant1_id : UserId
  participant2_id : UserId
  deriving DecidableEq, Repr

/-- A row of `public.messages`. -/
structure Message where
  id : RowId
  conversation_id : RowId
  sender_id : UserId
  content : Option String
  media_url : Option String
  media_type : Option String
  is_read : Bool
  deriving DecidableEq, Repr

/-- A row of `public.notifications`. -/
structure Notification where
  id : RowId
  user_id : UserId
  type : String
  from_user_id : Option UserId
  friendship_id : Option RowId
  is_read : Bool
  deriving DecidableEq, Repr

/-- The five relations of the schema. -/
structure Store where
  profiles : List Profile
  friendships : List Friendship
  conversations : List Conversation
  messages : List Message
  notifications : List Notification
  deriving DecidableEq, Repr

/-! ## Row-level-security policies -/

/-- The friendship-existence subquery of the final profile SELECT policy
("Users can view their own profile and connected profiles"):
`(requester_id = auth.uid() AND addressee_id = profiles.user_id) OR
 (addressee_id = auth.uid() AND requester_id = profiles.user_id)`.
Note that no condition on `status` appears. -/
def friendshipLinks (f : Friendship) (uid owner : UserId) : Bool :=
  (f.requester_id = uid && f.addressee_id = owner) ||
  (f.addressee_id = uid && f.requester_id = owner)

/-- Final SELECT policy on `public.profiles` (migration 20260111005517):
`auth.uid() = user_id OR EXISTS (SELECT 1 FROM friendships WHERE ...)`. -/
def profileSelectPolicy (s : Store) (uid : UserId) (p : Profile) : Bool :=
  uid = p.user_id || s.friendships.any (fun f => friendshipLinks f uid p.user_id)

/-- INSERT policy "Users can send messages in their conversations" on
`public.messages`: `auth.uid() = sender_id AND EXISTS (SELECT 1 FROM
conversations WHERE id = conversation_id AND (participant1_id = auth.uid()
OR participant2_id = auth.uid()))`. -/
def messageInsertPolicy (s : Store) (uid : UserId) (m : Message) : Bool :=
  uid = m.sender_id &&
  s.conversations.any (fun c =>
    c.id = m.conversation_id &&
    (c.participant1_id = uid || c.participant2_id = uid))

/-- INSERT policy "Users can send friend requests" on `public.friendships`:
`auth.uid() = requester_id`. -/
def friendshipInsertPolicy (uid : UserId) (f : Friendship) : Bool :=
  uid = f.requester_id

/-- INSERT policy "Users can create notifications" on `public.notifications`:
`auth.uid() = from_user_id`. -/
def notificationInsertPolicy (uid : UserId) (n : Notification) : Bool :=
  some uid = n.from_user_id

/-- USING clause shared by the friendships UPDATE and DELETE policies:
`auth.uid() = requester_id OR auth.uid() = addressee_id`. -/
def friendshipRowPolicy (uid : UserId) (f : Friendship) : Bool :=
  uid = f.requester_id || uid = f.addressee_id

/-- USING clause of "Users can update their notifications":
`auth.uid() = user_id`. -/
def notificationRowPolicy (uid : UserId) (n : Notification) : Bool :=
  uid = n.user_id

/-! ## Client operations on friendships -/

/-- The PostgREST filter
`.or(and(requester_id.eq.a,addressee_id.eq.b),and(requester_id.eq.b,addressee_id.eq.a))`
used by `sendFriendRequest`, `handleDeleteFriend` and `handleBlockUser`:
the row concerns the unordered pair `{a, b}`.  Every such row has the
caller as requester or addressee, so the friendships SELECT policy does
not narrow these queries further. -/
def friendshipPairFilter (f : Friendship) (a b : UserId) : Bool :=
  (f.requester_id = a && f.addressee_id = b) ||
  (f.requester_id = b && f.addressee_id = a)

/-- `maybeSingle()` with the error field discarded, as in the source
(`const { data: existing } = await ... .maybeSingle()`): the data is the
row when exactly one row matches and null otherwise — zero rows, or the
multiple-rows error whose data is also null. -/
def maybeSingle {α : Type} (l : List α) : Option α :=
  match l with
  | [f] => some f
  | _ => none

/-- INSERT into `public.friendships`: rejected by
`UNIQUE(requester_id, addressee_id)` when the ordered pair is taken, and
by the INSERT policy when the caller is not the requester.  (Primary-key
ids are generated fresh by the database and are not re-checked here.) -/
def insertFriendship (s : Store) (uid : UserId) (f : Friendship) : Option Store :=
  if s.friendships.any (fun g =>
      g.requester_id = f.requester_id && g.addressee_id = f.addressee_id) then
    none
  else if friendshipInsertPolicy uid f then
    some { s with friendships := s.friendships ++ [f] }
  else
    none

/-- INSERT into `public.notifications`, gated by its INSERT policy. -/
def insertNotification (s : Store) (uid : UserId) (n : Notification) : Option Store :=
  if notificationInsertPolicy uid n then
    some { s with notifications := s.notifications ++ [n] }
  else
    none

/-- Outcome reported by `sendFriendRequest` through its toasts. -/
inductive SendOutcome where
  | alreadyExists
  | sent (friendshipId : RowId)
  | failed
  deriving DecidableEq, Repr

/-- `sendFriendRequest` from the user-search component: pre-check both
orderings of the pair with `maybeSingle`, return early when a row exists,
otherwise insert the pending friendship with the caller as requester; a
thrown insert error is caught and leaves the store as it was.  The final
notification insert's own result is ignored by the source. -/
def sendFriendRequest (s : Store) (callerId targetId : UserId)
    (newFid newNid : RowId) : Store × SendOutcome :=
  match maybeSingle (s.friendships.filter
      (fun f => friendshipPairFilter f callerId targetId)) with
  | some _ => (s, .alreadyExists)
  | none =>
    let f : Friendship :=
      { id := newFid, requester_id := callerId, addressee_id := targetId,
        status := .pending }
    match insertFriendship s callerId f with
    | none => (s, .failed)
    | some s1 =>
      let n : Notification :=
        { id := newNid, user_id := targetId, type := "friend_request",
          from_user_id := some callerId, friendship_id := some newFid,
          is_read := false }
      ((insertNotification s1 callerId n).getD s1, .sent newFid)

/-- The `UNIQUE(requester_id, addressee_id)` constraint as a store
invariant: no two friendship rows share the ordered pair. -/
def FriendshipsOrderedPairUnique (l : List Friendship) : Prop :=
  l.Pairwise (fun f g =>
    ¬(f.requester_id = g.requester_id ∧ f.addressee_id = g.addressee_id))

/-! ## Notification-bell and chat-window handlers -/

/-- UPDATE `friendships SET status = st WHERE id = fid` issued by
`caller`: row-level security applies the update only to rows whose USING
clause passes.  `fid` is an `Option` because `notifications.friendship_id`
is nullable. -/
def updateFriendshipStatusById (s : Store) (caller : UserId)
    (fid : Option RowId) (st : FriendshipStatus) : Store :=
  { s with friendships := s.friendships.map (fun f =>
      if some f.id = fid && friendshipRowPolicy caller f then
        { f with status := st }
      else f) }

/-- DELETE FROM `friendships` issued by `caller` for the rows matching
`cond`, restricted by the DELETE policy; the rows actually deleted cascade
into `notifications` through `friendship_id ... ON DELETE CASCADE`. -/
def deleteFriendships (s : Store) (caller : UserId)
    (cond : Friendship → Bool) : Store :=
  let deleted := s.friendships.filter
    (fun f => cond f && friendshipRowPolicy caller f)
  { s with
    friendships := s.friendships.filter
      (fun f => !(cond f && friendshipRowPolicy caller f)),
    notifications := s.notifications.filter
      (fun n => !(deleted.any (fun f => n.friendship_id = some f.id))) }

/-- UPDATE `notifications SET is_read = true WHERE id = nid` issued by
`caller`, restricted by the notifications UPDATE policy. -/
def markNotificationRead (s : Store) (caller : UserId) (nid : RowId) : Store :=
  { s with notifications := s.notifications.map (fun n =>
      if n.id = nid && notificationRowPolicy caller n then
        { n with is_read := true }
      else n) }

/-- `handleFriendRequest` from the notification bell: accepting updates
the referenced friendship's status to accepted (matching on id only, with
no check of its prior status), declining deletes the row; either way the
triggering notification is then marked read. -/
def handleFriendRequest (s : Store) (caller : UserId) (n : Notification)
    (accept : Bool) : Store :=
  let s1 :=
    if accept then
      updateFriendshipStatusById s caller n.friendship_id .accepted
    else
      deleteFriendships s caller (fun f => some f.id = n.friendship_id)
  markNotificationRead s1 caller n.id

/-- `handleBlockUser` from the chat window: UPDATE status to blocked over
the pair filter in either direction. -/
def handleBlockUser (s : Store) (caller friendUserId : UserId) : Store :=
  { s with friendships := s.friendships.map (fun f =>
      if friendshipPairFilter f caller friendUserId &&
          friendshipRowPolicy caller f then
        { f with status := .blocked }
      else f) }

/-- `handleDeleteFriend` from the chat window: DELETE over the pair filter
in either direction.  The handler touches no other table — in particular
it issues no delete against `conversations` or `messages`. -/
def handleDeleteFriend (s : Store) (caller friendUserId : UserId) : Store :=
  deleteFriendships s caller (fun f => friendshipPairFilter f caller friendUserId)

/-! ## Conversation lookup and creation -/

/-- The PostgREST filter
`.or(and(participant1_id.eq.a,participant2_id.eq.b),and(participant1_id.eq.b,participant2_id.eq.a))`
used by `fetchOrCreateConversation`: the stored pair matches `{a, b}` in
either order.  The caller is a participant of every matching row, so the
conversations SELECT policy does not narrow the query further. -/
def conversationPairFilter (c : Conversation) (a b : UserId) : Bool :=
  (c.participant1_id = a && c.participant2_id = b) ||
  (c.participant1_id = b && c.participant2_id = a)

/-- INSERT policy "Users can create conversations":
`auth.uid() = participant1_id OR auth.uid() = participant2_id`. -/
def conversationInsertPolicy (uid : UserId) (c : Conversation) : Bool :=
  uid = c.participant1_id || uid = c.participant2_id

/-- INSERT into `public.conversations`, rejected by
`UNIQUE(participant1_id, participant2_id)` or by the INSERT policy. -/
def insertConversation (s : Store) (uid : UserId) (c : Conversation) :
    Option Store :=
  if s.conversations.any (fun d =>
      d.participant1_id = c.participant1_id &&
      d.participant2_id = c.participant2_id) then
    none
  else if conversationInsertPolicy uid c then
    some { s with conversations := s.conversations ++ [c] }
  else
    none

/-- `fetchOrCreateConversation` from the chat window: look the pair up in
either order with `maybeSingle`; when the data is null, insert a new row
with participant1 the caller and participant2 the friend; a failed insert
surfaces as `none` ("Failed to start conversation"). -/
def fetchOrCreateConversation (s : Store) (callerId friendUserId : UserId)
    (newId : RowId) : Store × Option RowId :=
  match maybeSingle (s.conversations.filter
      (fun c => conversationPairFilter c callerId friendUserId)) with
  | some c => (s, some c.id)
  | none =>
    match insertConversation s callerId
        ⟨newId, callerId, friendUserId⟩ with
    | none => (s, none)
    | some s1 => (s1, some newId)

/-! ## Username search (security-definer function) -/

/-- One fueled step of SQL LIKE pattern matching over characters: `%`
matches any sequence, `_` matches any single character, a backslash
escapes the following pattern character, and any other pattern character
matches itself.  The fuel only bounds recursion depth; `likeMatches`
supplies enough fuel for every match to complete. -/
def likeMatchesFuel : Nat → List Char → List Char → Bool
  | 0, _, _ => false
  | _ + 1, [], s => s.isEmpty
  | fuel + 1, '%' :: p, s =>
    likeMatchesFuel fuel p s ||
    (match s with
     | [] => false
     | _ :: s1 => likeMatchesFuel fuel ('%' :: p) s1)
  | fuel + 1, '_' :: p, s =>
    (match s with
     | [] => false
     | _ :: s1 => likeMatchesFuel fuel p s1)
  | fuel + 1, '\\' :: p, s =>
    (match p, s with
     | e :: p1, c :: s1 => e == c && likeMatchesFuel fuel p1 s1
     | _, _ => false)
  | fuel + 1, e :: p, s =>
    (match s with
     | [] => false
     | c :: s1 => e == c && likeMatchesFuel fuel p s1)

/-- SQL LIKE matching; every recursive step consumes pattern or subject,
so `p.length + s.length + 1` fuel always suffices. -/
def likeMatches (p s : List Char) : Bool :=
  likeMatchesFuel (p.length + s.length + 1) p s

/-- `ILIKE`: case-insensitive LIKE, matching with both sides
lowercased. -/
def stringILike (s pattern : String) : Bool :=
  likeMatches (pattern.toList.map Char.toLower) (s.toList.map Char.toLower)

/-- Row type returned by `search_profiles_by_username` — exactly the
columns id, user_id, username, avatar_url and bio, with no gender or date
of birth. -/
structure SearchProfileRow where
  id : RowId
  user_id : UserId
  username : String
  avatar_url : Option String
  bio : Option String
  deriving DecidableEq, Repr

/-- `search_profiles_by_username(search_query, exclude_user_id)`, the
SECURITY DEFINER function that bypasses the profiles SELECT policy:
`WHERE p.username ILIKE '%' || search_query || '%' AND p.user_id !=
exclude_user_id LIMIT 10`. -/
def search_profiles_by_username (s : Store) (search_query : String)
    (exclude_user_id : UserId) : List SearchProfileRow :=
  ((s.profiles.filter (fun p =>
      stringILike p.username ("%" ++ search_query ++ "%") &&
      p.user_id != exclude_user_id)).take 10).map
    (fun p => ⟨p.id, p.user_id, p.username, p.avatar_url, p.bio⟩)

/-- Does `needle` occur at the start of `hay`? -/
def startsWithChars : List Char → List Char → Bool
  | [], _ => true
  | _ :: _, [] => false
  | a :: as, b :: bs => a == b && startsWithChars as bs

/-- Does `needle` occur contiguously anywhere in `hay`? -/
def containsChars : List Char → List Char → Bool
  | needle, [] => startsWithChars needle []
  | needle, c :: t => startsWithChars needle (c :: t) || containsChars needle t

/-- The claim's reading of the search filter, stated in its own words:
the query occurs in the username as a case-insensitive literal
substring. -/
def containsCaseInsensitive (needle hay : String) : Bool :=
  containsChars (needle.toList.map Char.toLower) (hay.toList.map Char.toLower)

/-! ## Username normalization (profile settings) -/

/-- The character class kept by the replace `[^a-z0-9_]` applied to the
already-lowercased value. -/
def isUsernameChar (c : Char) : Bool :=
  ('a' ≤ c && c ≤ 'z') || ('0' ≤ c && c ≤ '9') || c == '_'

/-- `value.toLowerCase().replace(/[^a-z0-9_]/g, '')` — applied by the
username input's onChange handler to every edit, and applied again by
`handleSave` to the value it stores. -/
def normalizeUsername (s : String) : String :=
  ((s.toList.map Char.toLower).filter isUsernameChar).asString

/-- JavaScript `String.prototype.trim` (whitespace stripped from both
ends), used by `handleSave`'s blank-field guard `!username.trim()`. -/
def jsTrim (s : String) : String :=
  (((s.toList.dropWhile Char.isWhitespace).reverse.dropWhile
      Char.isWhitespace).reverse).asString

/-- The username path of `handleSave`: return without saving when the
field is blank or its content shorter than 3 characters, otherwise store
the re-normalized username. -/
def handleSaveUsername (username : String) : Option String :=
  if jsTrim username = "" then none
  else if username.length < 3 then none
  else some (normalizeUsername username)

/-- The pipeline seen by a raw typed value: the onChange handler
normalizes the field's content before `handleSave` reads it. -/
def updateProfileUsername (input : String) : Option String :=
  handleSaveUsername (normalizeUsername input)

/-! ## Theorems for the pure policy claims -/

/-- C1: the final profiles SELECT policy permits caller `x` to read the
profile row of owner `y` if and only if `x = y` or some friendship row links
`x` and `y` in either direction, with no condition on its status; absent
both, the row is not readable. -/
theorem C1_profile_visibility (s : Store) (x : UserId) (p : Profile) :
    profileSelectPolicy s x p = true ↔
      x = p.user_id ∨
      ∃ f ∈ s.friendships,
        (f.requester_id = x ∧ f.addressee_id = p.user_id) ∨
        (f.addressee_id = x ∧ f.requester_id = p.user_id) := by
  simp [profileSelectPolicy, friendshipLinks, List.any_eq_true]

/-- C3: the messages INSERT policy accepts a candidate row `m` from
caller `c` if and only if `c` is the sender of `m` and the conversation `m`
references exists with `c` as participant1 or participant2; in every other
case the write is rejected. -/
theorem C3_message_containment (s : Store) (c : UserId) (m : Message) :
    messageInsertPolicy s c m = true ↔
      c = m.sender_id ∧
      ∃ conv ∈ s.conversations,
        conv.id = m.conversation_id ∧
        (conv.participant1_id = c ∨ conv.participant2_id = c) := by
  simp [messageInsertPolicy, List.any_eq_true]

/-- Helper: a row matching the ordered pair `(a, b)` matches the pair
filter for `{a, b}`. -/
theorem friendshipPairFilter_of_ordered {f : Friendship} {a b : UserId}
    (h1 : f.requester_id = a) (h2 : f.addressee_id = b) :
    friendshipPairFilter f a b = true := by
  simp [friendshipPairFilter, h1, h2]

/-- C2: for distinct identities `a` and `b` with no pre-existing friendship
row for the pair, `sendFriendRequest` succeeds, exactly one friendship row
for the unordered pair exists afterwards — pending, with requester `a` —
and a `friend_request` notification for `b` from `a` referencing it
exists. -/
theorem C2_send_friend_request (s : Store) (a b : UserId) (fid nid : RowId)
    (hab : a ≠ b)
    (hnone : ∀ f ∈ s.friendships, friendshipPairFilter f a b = false) :
    (sendFriendRequest s a b fid nid).2 = .sent fid ∧
    (sendFriendRequest s a b fid nid).1.friendships.filter
        (fun f => friendshipPairFilter f a b) =
      [{ id := fid, requester_id := a, addressee_id := b,
         status := .pending }] ∧
    ∃ n ∈ (sendFriendRequest s a b fid nid).1.notifications,
      n.type = "friend_request" ∧ n.user_id = b ∧
      n.from_user_id = some a ∧ n.friendship_id = some fid := by
  have hfilter : s.friendships.filter (fun f => friendshipPairFilter f a b) = [] := by
    simp only [List.filter_eq_nil_iff]
    intro f hf
    simp [hnone f hf]
  have hany : s.friendships.any (fun g => g.requester_id = a && g.addressee_id = b) = false := by
    simp only [List.any_eq_false]
    intro g hg
    have h := hnone g hg
    simp only [friendshipPairFilter, Bool.or_eq_false_iff, Bool.and_eq_false_iff] at h
    rcases h.1 with h1 | h1 <;> simp [h1]
  have step : sendFriendRequest s a b fid nid =
      ({ s with
          friendships := s.friendships ++ [⟨fid, a, b, .pending⟩],
          notifications := s.notifications ++
            [⟨nid, b, "friend_request", some a, some fid, false⟩] },
        .sent fid) := by
    unfold sendFriendRequest
    rw [hfilter]
    simp only [maybeSingle]
    unfold insertFriendship
    rw [hany]
    simp [friendshipInsertPolicy, insertNotification, notificationInsertPolicy]
  rw [step]
  refine ⟨rfl, ?_, ?_⟩
  · show (s.friendships ++ ([⟨fid, a, b, .pending⟩] : List Friendship)).filter
        (fun f => friendshipPairFilter f a b) = _
    rw [List.filter_append, hfilter]
    simp [friendshipPairFilter]
  · exact ⟨⟨nid, b, "friend_request", some a, some fid, false⟩,
      by simp, rfl, rfl, rfl, rfl⟩

/-- Witness for C2 on a concrete empty store. -/
theorem C2_send_friend_request_witness :
    (sendFriendRequest ⟨[], [], [], [], []⟩ 1 2 10 20).2 = .sent 10 :=
  (C2_send_friend_request ⟨[], [], [], [], []⟩ 1 2 10 20 (by decide)
    (by intro f hf; simp at hf)).1

/-- C10: when any friendship row for the unordered pair `{a, b}` already
exists — in either direction and in any status, including blocked — then
`sendFriendRequest a b` leaves the store unmodified and does not report a
sent request: with a single matching row the pre-check returns early, and
with rows in both orders (the raced state) the pre-check's `maybeSingle`
yields null but the `(a, b)` insert then violates
`UNIQUE(requester_id, addressee_id)` and is rolled back. -/
theorem C10_existing_pair_blocks_resend (s : Store) (a b : UserId)
    (fid nid : RowId)
    (huniq : FriendshipsOrderedPairUnique s.friendships)
    (hex : ∃ f ∈ s.friendships, friendshipPairFilter f a b = true) :
    (sendFriendRequest s a b fid nid).1 = s ∧
    ∀ i, (sendFriendRequest s a b fid nid).2 ≠ .sent i := by
  obtain ⟨f0, hf0, hmatch0⟩ := hex
  have hf0' : f0 ∈ s.friendships.filter (fun f => friendshipPairFilter f a b) :=
    List.mem_filter.mpr ⟨hf0, hmatch0⟩
  unfold sendFriendRequest
  rcases hl : s.friendships.filter (fun f => friendshipPairFilter f a b) with
    _ | ⟨f, _ | ⟨g, t⟩⟩
  · rw [hl] at hf0'; simp at hf0'
  · simp [maybeSingle]
  · -- raced state: at least two rows match the unordered pair, so one of
    -- them carries the ordered pair (a, b) and the insert must conflict.
    have hpair : FriendshipsOrderedPairUnique (f :: g :: t) := by
      rw [← hl]
      exact huniq.sublist (List.filter_sublist s.friendships)
    have hfg : ¬(f.requester_id = g.requester_id ∧ f.addressee_id = g.addressee_id) :=
      (List.pairwise_cons.mp hpair).1 g (List.mem_cons_self g t)
    have hfm : friendshipPairFilter f a b = true := by
      have hmem : f ∈ s.friendships.filter (fun x => friendshipPairFilter x a b) := by
        rw [hl]; exact List.mem_cons_self _ _
      exact (List.mem_filter.mp hmem).2
    have hgm : friendshipPairFilter g a b = true := by
      have hmem : g ∈ s.friendships.filter (fun x => friendshipPairFilter x a b) := by
        rw [hl]; exact List.mem_cons_of_mem _ (List.mem_cons_self _ _)
      exact (List.mem_filter.mp hmem).2
    have hfmem : f ∈ s.friendships := by
      have hmem : f ∈ s.friendships.filter (fun x => friendshipPairFilter x a b) := by
        rw [hl]; exact List.mem_cons_self _ _
      exact List.mem_of_mem_filter hmem
    have hgmem : g ∈ s.friendships := by
      have hmem : g ∈ s.friendships.filter (fun x => friendshipPairFilter x a b) := by
        rw [hl]; exact List.mem_cons_of_mem _ (List.mem_cons_self _ _)
      exact List.mem_of_mem_filter hmem
    have hexists : ∃ h ∈ s.friendships, h.requester_id = a ∧ h.addressee_id = b := by
      simp only [friendshipPairFilter, Bool.or_eq_true, Bool.and_eq_true,
        decide_eq_true_eq] at hfm hgm
      rcases hfm with hfab | hfba
      · exact ⟨f, hfmem, hfab⟩
      · rcases hgm with hgab | hgba
        · exact ⟨g, hgmem, hgab⟩
        · exact absurd ⟨hfba.1.trans hgba.1.symm, hfba.2.trans hgba.2.symm⟩ hfg
    have hany : s.friendships.any (fun g => g.requester_id = a && g.addressee_id = b) = true := by
      simp only [List.any_eq_true, Bool.and_eq_true, decide_eq_true_eq]
      exact hexists
    simp only [maybeSingle]
    unfold insertFriendship
    rw [hany]
    simp

/-- Witness for C10 on a concrete store holding one blocked row. -/
theorem C10_existing_pair_blocks_resend_witness :
    (sendFriendRequest ⟨[], [⟨0, 1, 2, .blocked⟩], [], [], []⟩ 1 2 10 20).1 =
      ⟨[], [⟨0, 1, 2, .blocked⟩], [], [], []⟩ :=
  (C10_existing_pair_blocks_resend ⟨[], [⟨0, 1, 2, .blocked⟩], [], [], []⟩
    1 2 10 20 (by constructor <;> simp)
    ⟨⟨0, 1, 2, .blocked⟩, by simp, by decide⟩).1

/-- C5: for a pending friendship row `f` whose triggering notification is
`n` — recipient `f.addressee_id`, referencing `f.id` — handled by its
recipient: accepting sets the row's status to accepted, declining deletes
the row (which cascades the notification away), and neither path leaves a
notification with `n`'s id unread. -/
theorem C5_respond_to_friend_request (s : Store) (f : Friendship)
    (n : Notification)
    (hf : f ∈ s.friendships)
    (hkeyF : ∀ g ∈ s.friendships, g.id = f.id → g = f)
    (hkeyN : ∀ m ∈ s.notifications, m.id = n.id → m = n)
    (hpend : f.status = .pending)
    (href : n.friendship_id = some f.id)
    (hrecip : n.user_id = f.addressee_id) :
    ((∃ g ∈ (handleFriendRequest s n.user_id n true).friendships,
        g.id = f.id ∧ g.status = .accepted) ∧
     (∀ g ∈ (handleFriendRequest s n.user_id n true).friendships,
        g.id = f.id → g.status = .accepted) ∧
     (∀ m ∈ (handleFriendRequest s n.user_id n true).notifications,
        m.id = n.id → m.is_read = true)) ∧
    ((∀ g ∈ (handleFriendRequest s n.user_id n false).friendships,
        g.id ≠ f.id) ∧
     (∀ m ∈ (handleFriendRequest s n.user_id n false).notifications,
        m.id = n.id → m.is_read = true)) := by
  have hpol : friendshipRowPolicy n.user_id f = true := by
    simp [friendshipRowPolicy, hrecip]
  have hcondF : (decide (some f.id = n.friendship_id) &&
      friendshipRowPolicy n.user_id f) = true := by
    simp [href, hpol]
  have haccF : (handleFriendRequest s n.user_id n true).friendships =
      s.friendships.map (fun g =>
        if some g.id = n.friendship_id && friendshipRowPolicy n.user_id g then
          { g with status := FriendshipStatus.accepted }
        else g) := rfl
  have haccN : (handleFriendRequest s n.user_id n true).notifications =
      s.notifications.map (fun m =>
        if m.id = n.id && notificationRowPolicy n.user_id m then
          { m with is_read := true }
        else m) := rfl
  have hdecF : (handleFriendRequest s n.user_id n false).friendships =
      s.friendships.filter (fun g =>
        !(decide (some g.id = n.friendship_id) &&
          friendshipRowPolicy n.user_id g)) := rfl
  have hdecN : (handleFriendRequest s n.user_id n false).notifications =
      (s.notifications.filter (fun m =>
        !((s.friendships.filter (fun g =>
            decide (some g.id = n.friendship_id) &&
            friendshipRowPolicy n.user_id g)).any
          (fun g => m.friendship_id = some g.id)))).map (fun m =>
        if m.id = n.id && notificationRowPolicy n.user_id m then
          { m with is_read := true }
        else m) := rfl
  refine ⟨⟨?_, ?_, ?_⟩, ?_, ?_⟩
  · -- accepting leaves a row with f's id in status accepted
    rw [haccF]
    refine ⟨{ f with status := FriendshipStatus.accepted },
      List.mem_map.mpr ⟨f, hf, ?_⟩, rfl, rfl⟩
    simp only [hcondF, if_true]
  · -- every row with f's id is accepted after the accept path
    rw [haccF]
    intro g hg hid
    obtain ⟨g0, hg0, he⟩ := List.mem_map.mp hg
    by_cases hc : (decide (some g0.id = n.friendship_id) &&
        friendshipRowPolicy n.user_id g0) = true
    · rw [if_pos hc] at he
      rw [← he]
    · rw [if_neg hc] at he
      subst he
      exact absurd (hkeyF g0 hg0 hid ▸ hcondF) (by exact hc)
  · -- the accept path marks every notification with n's id read
    rw [haccN]
    intro m hm hid
    obtain ⟨m0, hm0, he⟩ := List.mem_map.mp hm
    by_cases hc : (decide (m0.id = n.id) &&
        notificationRowPolicy n.user_id m0) = true
    · rw [if_pos hc] at he
      rw [← he]
    · rw [if_neg hc] at he
      subst he
      have hm0n : m0 = n := hkeyN m0 hm0 hid
      refine absurd ?_ hc
      simp [hm0n, notificationRowPolicy]
  · -- declining removes every row with f's id
    rw [hdecF]
    intro g hg hid
    have hkeep := (List.mem_filter.mp hg).2
    have hg0 : g ∈ s.friendships := List.mem_of_mem_filter hg
    have hgf : g = f := hkeyF g hg0 hid
    rw [hgf] at hkeep
    rw [hcondF] at hkeep
    simp at hkeep
  · -- the decline path leaves no unread notification with n's id
    rw [hdecN]
    intro m hm hid
    obtain ⟨m0, hm0, he⟩ := List.mem_map.mp hm
    by_cases hc : (decide (m0.id = n.id) &&
        notificationRowPolicy n.user_id m0) = true
    · rw [if_pos hc] at he
      rw [← he]
    · rw [if_neg hc] at he
      subst he
      have hm0s : m0 ∈ s.notifications := List.mem_of_mem_filter hm0
      have hm0n : m0 = n := hkeyN m0 hm0s hid
      rw [hm0n] at hm0
      have hkeep := (List.mem_filter.mp hm0).2
      have hfdel : f ∈ s.friendships.filter (fun g =>
          decide (some g.id = n.friendship_id) &&
          friendshipRowPolicy n.user_id g) :=
        List.mem_filter.mpr ⟨hf, hcondF⟩
      have hany : ((s.friendships.filter (fun g =>
          decide (some g.id = n.friendship_id) &&
          friendshipRowPolicy n.user_id g)).any
            (fun g => n.friendship_id = some g.id)) = true := by
        simp only [List.any_eq_true]
        exact ⟨f, hfdel, by simp [href]⟩
      rw [hany] at hkeep
      simp at hkeep

/-- Witness for C5 on a one-row store: requester 1 asked addressee 2. -/
theorem C5_respond_to_friend_request_witness :
    ((∃ g ∈ (handleFriendRequest
        ⟨[], [⟨7, 1, 2, .pending⟩], [], [],
          [⟨3, 2, "friend_request", some 1, some 7, false⟩]⟩ 2
        ⟨3, 2, "friend_request", some 1, some 7, false⟩ true).friendships,
        g.id = 7 ∧ g.status = .accepted)) ∧
    (∀ g ∈ (handleFriendRequest
        ⟨[], [⟨7, 1, 2, .pending⟩], [], [],
          [⟨3, 2, "friend_request", some 1, some 7, false⟩]⟩ 2
        ⟨3, 2, "friend_request", some 1, some 7, false⟩ false).friendships,
        g.id ≠ 7) := by
  have h := C5_respond_to_friend_request
    ⟨[], [⟨7, 1, 2, .pending⟩], [], [],
      [⟨3, 2, "friend_request", some 1, some 7, false⟩]⟩
    ⟨7, 1, 2, .pending⟩
    ⟨3, 2, "friend_request", some 1, some 7, false⟩
    (by decide) (by decide) (by decide) (by decide) (by decide) (by decide)
  exact ⟨h.1.1, h.2.1⟩

/-- Helper: whatever branch `sendFriendRequest` takes, the friendships
table is only ever extended at the end, never rewritten. -/
theorem sendFriendRequest_friendships_extend (s : Store) (a b : UserId)
    (fid nid : RowId) :
    ∃ t, (sendFriendRequest s a b fid nid).1.friendships =
      s.friendships ++ t := by
  cases hms : maybeSingle (s.friendships.filter
      (fun f => friendshipPairFilter f a b)) with
  | some f => exact ⟨[], by simp [sendFriendRequest, hms]⟩
  | none =>
    by_cases h1 : (s.friendships.any fun g =>
        decide (g.requester_id = a) && decide (g.addressee_id = b)) = true
    · exact ⟨[], by simp [sendFriendRequest, hms, insertFriendship, h1]⟩
    · exact ⟨[⟨fid, a, b, FriendshipStatus.pending⟩], by
        simp [sendFriendRequest, hms, insertFriendship, insertNotification,
          h1, friendshipInsertPolicy, notificationInsertPolicy]⟩

/-- The store exhibiting C7's failure: a blocked friendship between users
1 and 2 whose original friend-request notification is still unread. -/
def c7Store : Store :=
  ⟨[], [⟨0, 1, 2, .blocked⟩], [], [],
    [⟨5, 2, "friend_request", some 1, some 0, false⟩]⟩

/-- C7 counterexample: accepting the stale friend-request notification
moves the blocked row to accepted, so blocked is not terminal under the
operations the application exposes. -/
theorem C7_blocked_not_terminal_counterexample :
    (handleFriendRequest c7Store 2
      ⟨5, 2, "friend_request", some 1, some 0, false⟩ true).friendships =
      [⟨0, 1, 2, .accepted⟩] := by decide

/-- C7 amended: `sendFriendRequest` and `blockUser` indeed leave a blocked
row untouched and no unblock path exists through them, but
`respondToFriendRequest` with accept, applied to a notification
referencing the blocked row, sets its status to accepted unconditionally
(the UPDATE matches on id only, without checking the prior status). -/
theorem C7_blocked_terminal_amended (s : Store) (f : Friendship)
    (caller target : UserId) (fid nid : RowId) (n : Notification)
    (hf : f ∈ s.friendships) (hb : f.status = .blocked) :
    f ∈ (sendFriendRequest s caller target fid nid).1.friendships ∧
    f ∈ (handleBlockUser s caller target).friendships ∧
    (n.friendship_id = some f.id → friendshipRowPolicy caller f = true →
      { f with status := FriendshipStatus.accepted } ∈
        (handleFriendRequest s caller n true).friendships) := by
  refine ⟨?_, ?_, ?_⟩
  · obtain ⟨t, ht⟩ := sendFriendRequest_friendships_extend s caller target fid nid
    rw [ht]
    exact List.mem_append_left t hf
  · refine List.mem_map.mpr ⟨f, hf, ?_⟩
    by_cases hc : (friendshipPairFilter f caller target &&
        friendshipRowPolicy caller f) = true
    · rw [if_pos hc, ← hb]
    · rw [if_neg hc]
  · intro href hpol
    have hstep : (handleFriendRequest s caller n true).friendships =
        s.friendships.map (fun g =>
          if some g.id = n.friendship_id && friendshipRowPolicy caller g then
            { g with status := FriendshipStatus.accepted }
          else g) := rfl
    rw [hstep]
    refine List.mem_map.mpr ⟨f, hf, ?_⟩
    rw [if_pos (by simp [href, hpol])]

/-- Witness for the amended C7 on the concrete blocked store. -/
theorem C7_blocked_terminal_amended_witness :
    (⟨0, 1, 2, .blocked⟩ : Friendship) ∈
      (handleBlockUser c7Store 2 1).friendships ∧
    (⟨0, 1, 2, .accepted⟩ : Friendship) ∈
      (handleFriendRequest c7Store 2
        ⟨5, 2, "friend_request", some 1, some 0, false⟩ true).friendships := by
  have h := C7_blocked_terminal_amended c7Store ⟨0, 1, 2, .blocked⟩ 2 1 10 20
    ⟨5, 2, "friend_request", some 1, some 0, false⟩ (by decide) (by decide)
  exact ⟨h.2.1, h.2.2 (by decide) (by decide)⟩

/-- The failing input for C8: an accepted friendship between users 1 and
2, their conversation, and one message inside it. -/
def c8Store : Store :=
  ⟨[], [⟨0, 1, 2, .accepted⟩], [⟨4, 1, 2⟩],
    [⟨6, 4, 1, some "hi", none, none, false⟩], []⟩

/-- C8: removing the friend deletes the friendship row, but — against the
claim and the removal dialog's own text — the conversation and its
messages survive: the handler issues no delete against `conversations` or
`messages`, as the second conjunct states for every store. -/
theorem C8_remove_friend_keeps_conversation :
    ((handleDeleteFriend c8Store 1 2).friendships = [] ∧
     (handleDeleteFriend c8Store 1 2).conversations = [⟨4, 1, 2⟩] ∧
     (handleDeleteFriend c8Store 1 2).messages =
       [⟨6, 4, 1, some "hi", none, none, false⟩]) ∧
    ∀ (s : Store) (caller friendUserId : UserId),
      (handleDeleteFriend s caller friendUserId).conversations =
        s.conversations ∧
      (handleDeleteFriend s caller friendUserId).messages = s.messages := by
  exact ⟨by decide, fun s caller friendUserId => ⟨rfl, rfl⟩⟩

/-- C6: under the at-most-one-conversation-per-pair invariant,
`fetchOrCreateConversation` returns the existing conversation when the
stored pair matches `{a, b}` in either order, otherwise inserts a new row
with participant1 `a` and participant2 `b` and returns it; and a repeated
call with the arguments in the same order returns the same id. -/
theorem C6_get_or_create_conversation (s : Store) (a b : UserId)
    (i j : RowId)
    (huniq : (s.conversations.filter
        (fun c => conversationPairFilter c a b)).length ≤ 1) :
    (∀ c ∈ s.conversations, conversationPairFilter c a b = true →
        fetchOrCreateConversation s a b i = (s, some c.id)) ∧
    ((∀ c ∈ s.conversations, conversationPairFilter c a b = false) →
        fetchOrCreateConversation s a b i =
          ({ s with conversations := s.conversations ++ [⟨i, a, b⟩] },
            some i)) ∧
    ∃ r : RowId,
      (fetchOrCreateConversation s a b i).2 = some r ∧
      (fetchOrCreateConversation
        (fetchOrCreateConversation s a b i).1 a b j).2 = some r := by
  have hsingle : ∀ (l : List Conversation) (c : Conversation),
      l.length ≤ 1 → c ∈ l → l = [c] := by
    intro l c hl hc
    rcases l with _ | ⟨x, _ | ⟨y, t⟩⟩
    · simp at hc
    · simp at hc
      rw [hc]
    · simp at hl
  have hfound : ∀ c ∈ s.conversations, conversationPairFilter c a b = true →
      ∀ k, fetchOrCreateConversation s a b k = (s, some c.id) := by
    intro c hc hm k
    have hcf : c ∈ s.conversations.filter
        (fun c => conversationPairFilter c a b) :=
      List.mem_filter.mpr ⟨hc, hm⟩
    have hfl := hsingle _ c huniq hcf
    unfold fetchOrCreateConversation
    rw [hfl]
    simp [maybeSingle]
  have hcreate : (∀ c ∈ s.conversations,
      conversationPairFilter c a b = false) →
      ∀ k, fetchOrCreateConversation s a b k =
        ({ s with conversations := s.conversations ++ [⟨k, a, b⟩] },
          some k) := by
    intro hnone k
    have hfilter : s.conversations.filter
        (fun c => conversationPairFilter c a b) = [] := by
      simp only [List.filter_eq_nil_iff]
      intro c hc
      simp [hnone c hc]
    have hany : (s.conversations.any fun d =>
        decide (d.participant1_id = a) && decide (d.participant2_id = b))
          = false := by
      simp only [List.any_eq_false]
      intro d hd
      have h := hnone d hd
      simp only [conversationPairFilter, Bool.or_eq_false_iff,
        Bool.and_eq_false_iff] at h
      rcases h.1 with h1 | h1 <;> simp [h1]
    unfold fetchOrCreateConversation
    rw [hfilter]
    simp only [maybeSingle]
    unfold insertConversation
    simp [hany, conversationInsertPolicy]
  refine ⟨fun c hc hm => hfound c hc hm i, fun h => hcreate h i, ?_⟩
  by_cases hex : ∃ c ∈ s.conversations, conversationPairFilter c a b = true
  · obtain ⟨c, hc, hm⟩ := hex
    refine ⟨c.id, ?_, ?_⟩
    · rw [hfound c hc hm i]
    · rw [hfound c hc hm i]
      show (fetchOrCreateConversation s a b j).2 = some c.id
      rw [hfound c hc hm j]
  · have hnone : ∀ c ∈ s.conversations, conversationPairFilter c a b = false := by
      intro c hc
      cases hb : conversationPairFilter c a b
      · rfl
      · exact absurd ⟨c, hc, hb⟩ hex
    refine ⟨i, ?_, ?_⟩
    · rw [hcreate hnone i]
    · rw [hcreate hnone i]
      show (fetchOrCreateConversation
        { s with conversations := s.conversations ++ [⟨i, a, b⟩] } a b j).2
          = some i
      have hm : conversationPairFilter ⟨i, a, b⟩ a b = true := by
        simp [conversationPairFilter]
      have hfl : ({ s with conversations := s.conversations ++ [⟨i, a, b⟩] }
          : Store).conversations.filter
            (fun c => conversationPairFilter c a b) = [⟨i, a, b⟩] := by
        show (s.conversations ++ ([⟨i, a, b⟩] : List Conversation)).filter
          (fun c => conversationPairFilter c a b) = _
        rw [List.filter_append]
        have hnil : s.conversations.filter
            (fun c => conversationPairFilter c a b) = [] := by
          simp only [List.filter_eq_nil_iff]
          intro c hc
          simp [hnone c hc]
        rw [hnil]
        simp [hm]
      unfold fetchOrCreateConversation
      rw [hfl]
      simp [maybeSingle]

/-- Witness for C6 on the empty store. -/
theorem C6_get_or_create_conversation_witness :
    ∃ r, (fetchOrCreateConversation ⟨[], [], [], [], []⟩ 1 2 5).2 = some r ∧
      (fetchOrCreateConversation
        (fetchOrCreateConversation ⟨[], [], [], [], []⟩ 1 2 5).1 1 2 8).2
          = some r :=
  (C6_get_or_create_conversation ⟨[], [], [], [], []⟩ 1 2 5 8 (by decide)).2.2

/-- C4 counterexample: the query is interpolated into an ILIKE pattern,
so a `%` in the query acts as a wildcard: searching for the literal `"%"`
returns the profile named `"bob"` although `"bob"` does not contain `"%"`
as a substring. -/
theorem C4_wildcard_counterexample :
    (search_profiles_by_username
        ⟨[⟨0, 1, "bob", none, none, none, none⟩], [], [], [], []⟩
        "%" 2).map SearchProfileRow.username = ["bob"] ∧
    containsCaseInsensitive "%" "bob" = false := by decide

/-- C4 amended: `search_profiles_by_username` returns at most 10 rows;
every returned row's username matches the pattern `'%' || q || '%'` under
case-insensitive SQL LIKE semantics (so `%`, `_` and `\` in `q` act as
wildcards and escapes rather than literal characters); no returned row
belongs to the excluded caller; and every returned row is exactly the
(id, user_id, username, avatar_url, bio) projection of a stored
profile. -/
theorem C4_search_profiles_amended (s : Store) (q : String) (x : UserId) :
    (search_profiles_by_username s q x).length ≤ 10 ∧
    ∀ r ∈ search_profiles_by_username s q x,
      stringILike r.username ("%" ++ q ++ "%") = true ∧
      r.user_id ≠ x ∧
      ∃ p ∈ s.profiles,
        r = ⟨p.id, p.user_id, p.username, p.avatar_url, p.bio⟩ := by
  constructor
  · unfold search_profiles_by_username
    rw [List.length_map]
    exact List.length_take_le 10 _
  · intro r hr
    unfold search_profiles_by_username at hr
    obtain ⟨p, hp, he⟩ := List.mem_map.mp hr
    have hpf : p ∈ s.profiles.filter (fun p =>
        stringILike p.username ("%" ++ q ++ "%") &&
        p.user_id != x) := List.take_subset 10 _ hp
    have hcond := (List.mem_filter.mp hpf).2
    have hps : p ∈ s.profiles := List.mem_of_mem_filter hpf
    rw [Bool.and_eq_true] at hcond
    refine ⟨?_, ?_, p, hps, he.symm⟩
    · rw [← he]
      exact hcond.1
    · rw [← he]
      simpa using hcond.2

/-- Witness for the amended C4 on a one-profile store and a plain query. -/
theorem C4_search_profiles_amended_witness :
    (search_profiles_by_username
        ⟨[⟨0, 1, "alice", none, none, none, none⟩], [], [], [], []⟩
        "ali" 2).length ≤ 10 ∧
    stringILike "alice" ("%" ++ "ali" ++ "%") = true ∧ (1 : UserId) ≠ 2 := by
  have h := C4_search_profiles_amended
    ⟨[⟨0, 1, "alice", none, none, none, none⟩], [], [], [], []⟩ "ali" 2
  have hr := h.2 ⟨0, 1, "alice", none, none⟩ (by decide)
  exact ⟨h.1, hr.1, hr.2.1⟩

/-- Username characters are untouched by a further `toLowerCase`. -/
theorem toLower_eq_self_of_isUsernameChar (c : Char)
    (h : isUsernameChar c = true) : c.toLower = c := by
  simp only [isUsernameChar, Bool.or_eq_true, Bool.and_eq_true,
    decide_eq_true_eq, beq_iff_eq] at h
  have hcond : ¬(c.toNat ≥ 65 ∧ c.toNat ≤ 90) := by
    rcases h with (⟨h1, _⟩ | ⟨_, h2⟩) | h1
    · have ha : 97 ≤ c.toNat := h1
      intro hc
      omega
    · have hb : c.toNat ≤ 57 := h2
      intro hc
      omega
    · rw [h1]
      decide
  show (if c.toNat ≥ 65 ∧ c.toNat ≤ 90 then Char.ofNat (c.toNat + 32) else c) = c
  rw [if_neg hcond]

/-- Username characters are never whitespace. -/
theorem not_whitespace_of_isUsernameChar (c : Char)
    (h : isUsernameChar c = true) : c.isWhitespace = false := by
  cases hw : c.isWhitespace
  · rfl
  · exfalso
    simp only [Char.isWhitespace, Bool.or_eq_true, decide_eq_true_eq] at hw
    rcases hw with ((h1 | h1) | h1) | h1 <;> (subst h1; revert h; decide)

/-- `dropWhile` is the identity when no element satisfies the
predicate. -/
theorem dropWhile_eq_self_of_forall_false (p : Char → Bool)
    (l : List Char) (h : ∀ c ∈ l, p c = false) : l.dropWhile p = l := by
  cases l with
  | nil => rfl
  | cons a t =>
    rw [List.dropWhile_cons, h a (List.mem_cons_self a t)]
    simp

/-- The normalized username has no surrounding whitespace to strip. -/
theorem jsTrim_normalizeUsername (s : String) :
    jsTrim (normalizeUsername s) = normalizeUsername s := by
  have hchars : ∀ c ∈ (s.toList.map Char.toLower).filter isUsernameChar,
      Char.isWhitespace c = false := by
    intro c hc
    exact not_whitespace_of_isUsernameChar c (List.mem_filter.mp hc).2
  show ((((s.toList.map Char.toLower).filter
      isUsernameChar).dropWhile Char.isWhitespace).reverse.dropWhile
      Char.isWhitespace).reverse.asString = _
  rw [dropWhile_eq_self_of_forall_false _ _ hchars,
    dropWhile_eq_self_of_forall_false _ _
      (fun c hc => hchars c (List.mem_reverse.mp hc)),
    List.reverse_reverse]
  rfl

/-- Normalization is idempotent: its output is already lowercase and
contains only username characters. -/
theorem normalizeUsername_idem (s : String) :
    normalizeUsername (normalizeUsername s) = normalizeUsername s := by
  have hchars : ∀ c ∈ (s.toList.map Char.toLower).filter isUsernameChar,
      isUsernameChar c = true :=
    fun c hc => (List.mem_filter.mp hc).2
  show ((((s.toList.map Char.toLower).filter
      isUsernameChar).map Char.toLower).filter isUsernameChar).asString = _
  rw [List.map_congr_left
      (fun c hc => toLower_eq_self_of_isUsernameChar c (hchars c hc)),
    List.map_id', List.filter_eq_self.mpr hchars]
  rfl

/-- C9: the stored username is the input lowercased with every character
outside `[a-z0-9_]` removed; an input whose normal form is shorter than 3
characters is rejected before reaching storage; and the concrete example
`"John_Doe!"` is stored as `"john_doe"`. -/
theorem C9_username_normalization (s : String) :
    ((normalizeUsername s).length < 3 → updateProfileUsername s = none) ∧
    (3 ≤ (normalizeUsername s).length →
      updateProfileUsername s = some (normalizeUsername s)) ∧
    updateProfileUsername "John_Doe!" = some "john_doe" := by
  refine ⟨?_, ?_, by decide⟩
  · intro hlen
    unfold updateProfileUsername handleSaveUsername
    by_cases hjt : jsTrim (normalizeUsername s) = ""
    · rw [if_pos hjt]
    · rw [if_neg hjt, if_pos hlen]
  · intro hlen
    unfold updateProfileUsername handleSaveUsername
    have hne : jsTrim (normalizeUsername s) ≠ "" := by
      rw [jsTrim_normalizeUsername]
      intro he
      have hnil : (s.toList.map Char.toLower).filter isUsernameChar = [] :=
        congrArg String.data he
      have hzero : (normalizeUsername s).length = 0 := by
        show ((s.toList.map Char.toLower).filter isUsernameChar).length = 0
        rw [hnil]
        rfl
      omega
    rw [if_neg hne, if_neg (by omega), normalizeUsername_idem]

/-- Witness for C9: the spec's own example is stored normalized, and an
input normalizing to fewer than 3 characters is rejected. -/
theorem C9_username_normalization_witness :
    updateProfileUsername "John_Doe!" = some (normalizeUsername "John_Doe!") ∧
    updateProfileUsername "ab!" = none :=
  ⟨(C9_username_normalization "John_Doe!").2.1 (by decide),
   (C9_username_normalization "ab!").1 (by decide)⟩

end Nexagen
